import Mathlib

/-!
Verification of the keystore component of the `substrate` repository
(`src/client/keystore/src/lib.rs`).

The file under `src/` contains the keystore error type, its conversion to the
trait-level error, the delegation facade `Keystore`, and the test suite of the
local keystore.  The local keystore itself lives in the repository's `local`
module (declared `pub mod local;` in lib.rs) and in the `sp_core` /
`sp_application_crypto` crates, none of which are under `src/`; those parts
are modelled from the specification, as marked on each definition.

Everything is executable: all definitions are computable and all predicates
decidable, so each theorem can be evaluated on concrete inputs.
-/

set_option maxRecDepth 4000

/-- A byte, as stored in key files and public keys. -/
abbrev Byte := Fin 256

/-- Byte strings (public keys, key-type identifiers, file payloads). -/
abbrev Bytes := List Byte

/-- A 4-byte key-type identifier, `KeyTypeId` of `sp_core` (a `[u8; 4]`):
the purpose namespace of a key, used as the filename prefix on disk. -/
structure KeyTypeId where
  b0 : Byte
  b1 : Byte
  b2 : Byte
  b3 : Byte
deriving DecidableEq

/-- The four bytes of a `KeyTypeId`, in order. -/
def KeyTypeId.toBytes (k : KeyTypeId) : Bytes := [k.b0, k.b1, k.b2, k.b3]

/-- `sp_core::testing::SR25519 = KeyTypeId(*b"sr25")`, used by the tests. -/
def ktSR25519 : KeyTypeId := ⟨0x73, 0x72, 0x32, 0x35⟩

/-- `sp_core::testing::ED25519 = KeyTypeId(*b"ed25")`, used by the tests. -/
def ktED25519 : KeyTypeId := ⟨0x65, 0x64, 0x32, 0x35⟩

/-- `sp_core::testing::ECDSA = KeyTypeId(*b"ecds")`. -/
def ktECDSA : KeyTypeId := ⟨0x65, 0x63, 0x64, 0x73⟩

/-- The lowercase hex digit for a value below 16 (`hex::encode` digits). -/
def hexDigitChar (n : Fin 16) : Char :=
  "0123456789abcdef".data.getD n.val '0'

/-- The two lowercase hex digits of one byte, high nibble first. -/
def hexOfByte (b : Byte) : List Char :=
  [hexDigitChar ⟨b.val / 16, by omega⟩, hexDigitChar ⟨b.val % 16, by omega⟩]

/-- Lowercase hex encoding of a byte string, as `hex::encode` produces for
key filenames. -/
def hexEncode (bs : Bytes) : String :=
  ⟨(bs.map hexOfByte).flatten⟩

/-- The value of one hex digit character; `none` when the character is not a
hex digit.  Accepts both cases, as `hex::decode` does. -/
def hexCharVal (c : Char) : Option (Fin 16) :=
  if h : 48 ≤ c.toNat ∧ c.toNat ≤ 57 then some ⟨c.toNat - 48, by omega⟩
  else if h : 97 ≤ c.toNat ∧ c.toNat ≤ 102 then some ⟨c.toNat - 87, by omega⟩
  else if h : 65 ≤ c.toNat ∧ c.toNat ≤ 70 then some ⟨c.toNat - 55, by omega⟩
  else none

/-- Hex decoding of a character list into bytes; `none` when the length is
odd or a character is not a hex digit (`hex::decode`). -/
def hexDecodeChars : List Char → Option Bytes
  | [] => some []
  | [_] => none
  | c1 :: c2 :: rest =>
    match hexCharVal c1, hexCharVal c2, hexDecodeChars rest with
    | some hi, some lo, some bs => some (⟨hi.val * 16 + lo.val, by omega⟩ :: bs)
    | _, _, _ => none

/-- Keystore error, `Error` of src/client/keystore/src/lib.rs.  The payloads
of the first two variants model the wrapped `io::Error` and
`serde_json::Error` by their display strings, which is all the conversion at
the trait boundary ever reads from them. -/
inductive Error where
  | ioErr (s : String)
  | jsonErr (s : String)
  | invalidPassword
  | invalidPhrase
  | invalidSeed
  | keyNotSupported (id : KeyTypeId)
  | pairNotFound (s : String)
  | unavailable
deriving DecidableEq

/-- The `derive_more::Display` strings of `Error`, from the `#[display]`
attributes in lib.rs; the `Io` and `Json` variants forward to the wrapped
error's display. -/
def Error.display : Error → String
  | .ioErr s => s
  | .jsonErr s => s
  | .invalidPassword => "Invalid password"
  | .invalidPhrase => "Invalid recovery phrase (BIP39) data"
  | .invalidSeed => "Invalid seed"
  | .keyNotSupported _ => "Key crypto type is not supported"
  | .pairNotFound s => "Pair not found for " ++ s ++ " public key"
  | .unavailable => "Keystore unavailable"

/-- Trait-level error, `sp_core::traits::Error` (`TraitError` in lib.rs):
the error type of the `CryptoStore` capability surface. -/
inductive TraitError where
  | keyNotSupported (id : KeyTypeId)
  | pairNotFound (s : String)
  | validationError (s : String)
  | unavailable
  | other (s : String)
deriving DecidableEq

/-- Whether a trait-level error is of the `PairNotFound` kind. -/
def TraitError.isPairNotFound : TraitError → Bool
  | .pairNotFound _ => true
  | _ => false

/-- `impl From<Error> for TraitError`, lines 65-78 of
src/client/keystore/src/lib.rs, clause by clause. -/
def Error.toTraitError : Error → TraitError
  | .keyNotSupported id => .keyNotSupported id
  | .pairNotFound e => .pairNotFound e
  | .invalidSeed => .validationError (Error.display .invalidSeed)
  | .invalidPhrase => .validationError (Error.display .invalidPhrase)
  | .invalidPassword => .validationError (Error.display .invalidPassword)
  | .unavailable => .unavailable
  | .ioErr e => .other e
  | .jsonErr e => .other e

/-- Addition of 64-bit machine words, modelled on `Nat`. -/
def add64 (a b : Nat) : Nat := (a + b) % 2 ^ 64

/-- Right rotation of a 64-bit word by `n` places (for a word below `2^64`). -/
def rotr64 (n x : Nat) : Nat := x / 2 ^ n + x % 2 ^ n * 2 ^ (64 - n)

/-- A big-endian byte string read as a number. -/
def beNat (bs : Bytes) : Nat := bs.foldl (fun acc b => acc * 256 + b.val) 0

/-- A little-endian byte string read as a number. -/
def leNat (bs : Bytes) : Nat := bs.foldr (fun b acc => acc * 256 + b.val) 0

/-- The `n` low bytes of a number, little-endian. -/
def natToLEBytes : Nat → Nat → Bytes
  | 0, _ => []
  | n + 1, x => (⟨x % 256, by omega⟩ : Byte) :: natToLEBytes n (x / 256)

/-- The `n` low bytes of a number, big-endian. -/
def natToBEBytes (n x : Nat) : Bytes := (natToLEBytes n x).reverse

/-- The SHA-512 round constants (fractional parts of the cube roots of the
first eighty primes), RFC 6234. -/
def shaK : List Nat :=
  [4794697086780616226, 8158064640168781261, 13096744586834688815,
   16840607885511220156, 4131703408338449720, 6480981068601479193,
   10538285296894168987, 12329834152419229976, 15566598209576043074,
   1334009975649890238, 2608012711638119052, 6128411473006802146,
   8268148722764581231, 9286055187155687089, 11230858885718282805,
   13951009754708518548, 16472876342353939154, 17275323862435702243,
   1135362057144423861, 2597628984639134821, 3308224258029322869,
   5365058923640841347, 6679025012923562964, 8573033837759648693,
   10970295158949994411, 12119686244451234320, 12683024718118986047,
   13788192230050041572, 14330467153632333762, 15395433587784984357,
   489312712824947311, 1452737877330783856, 2861767655752347644,
   3322285676063803686, 5560940570517711597, 5996557281743188959,
   7280758554555802590, 8532644243296465576, 9350256976987008742,
   10552545826968843579, 11727347734174303076, 12113106623233404929,
   14000437183269869457, 14369950271660146224, 15101387698204529176,
   15463397548674623760, 17586052441742319658, 1182934255886127544,
   1847814050463011016, 2177327727835720531, 2830643537854262169,
   3796741975233480872, 4115178125766777443, 5681478168544905931,
   6601373596472566643, 7507060721942968483, 8399075790359081724,
   8693463985226723168, 9568029438360202098, 10144078919501101548,
   10430055236837252648, 11840083180663258601, 13761210420658862357,
   14299343276471374635, 14566680578165727644, 15097957966210449927,
   16922976911328602910, 17689382322260857208, 500013540394364858,
   748580250866718886, 1242879168328830382, 1977374033974150939,
   2944078676154940804, 3659926193048069267, 4368137639120453308,
   4836135668995329356, 5532061633213252278, 6448918945643986474,
   6902733635092675308, 7801388544844847127]

/-- The SHA-512 initial hash value (also the Blake2b IV), RFC 6234. -/
def shaH0 : List Nat :=
  [7640891576956012808, 13503953896175478587, 4354685564936845355,
   11912009170470909681, 5840696475078001361, 11170449401992604703,
   2270897969802886507, 6620516959819538809]

/-- SHA-512 message-schedule sigma-0. -/
def ssig0 (x : Nat) : Nat := rotr64 1 x ^^^ rotr64 8 x ^^^ x / 2 ^ 7

/-- SHA-512 message-schedule sigma-1. -/
def ssig1 (x : Nat) : Nat := rotr64 19 x ^^^ rotr64 61 x ^^^ x / 2 ^ 6

/-- SHA-512 round function big-sigma-0. -/
def bsig0 (x : Nat) : Nat := rotr64 28 x ^^^ rotr64 34 x ^^^ rotr64 39 x

/-- SHA-512 round function big-sigma-1. -/
def bsig1 (x : Nat) : Nat := rotr64 14 x ^^^ rotr64 18 x ^^^ rotr64 41 x

/-- SHA-2 choose function. -/
def shaCh (e f g : Nat) : Nat := (e &&& f) ^^^ ((2 ^ 64 - 1 - e % 2 ^ 64) &&& g)

/-- SHA-2 majority function. -/
def shaMaj (a b c : Nat) : Nat := (a &&& b) ^^^ (a &&& c) ^^^ (b &&& c)

/-- Extend a 16-word SHA-512 message block to the full 80-word schedule;
the first argument is the number of words still to append. -/
def shaExtend : Nat → List Nat → List Nat
  | 0, w => w
  | n + 1, w =>
    let t := w.length
    let nw := add64 (add64 (ssig1 (w.getD (t - 2) 0)) (w.getD (t - 7) 0))
              (add64 (ssig0 (w.getD (t - 15) 0)) (w.getD (t - 16) 0))
    shaExtend n (w ++ [nw])

/-- The running state of one SHA-512 compression. -/
structure Sha512St where
  a : Nat
  b : Nat
  c : Nat
  d : Nat
  e : Nat
  f : Nat
  g : Nat
  h : Nat

/-- One SHA-512 round; the pair holds the round constant and schedule word. -/
def shaRound (st : Sha512St) (kw : Nat × Nat) : Sha512St :=
  let t1 := add64 st.h (add64 (bsig1 st.e) (add64 (shaCh st.e st.f st.g) (add64 kw.1 kw.2)))
  let t2 := add64 (bsig0 st.a) (shaMaj st.a st.b st.c)
  ⟨add64 t1 t2, st.a, st.b, st.c, add64 st.d t1, st.e, st.f, st.g⟩

/-- Split a byte string into groups of eight read as big-endian words; the
first argument is recursion fuel (at least the list length). -/
def beWords : Nat → Bytes → List Nat
  | 0, _ => []
  | _, [] => []
  | fuel + 1, m => beNat (m.take 8) :: beWords fuel (m.drop 8)

/-- One SHA-512 block compression over the eight-word chaining value. -/
def sha512Block (h : List Nat) (block : Bytes) : List Nat :=
  let w := shaExtend 64 (beWords 128 block)
  let st0 : Sha512St :=
    ⟨h.getD 0 0, h.getD 1 0, h.getD 2 0, h.getD 3 0,
     h.getD 4 0, h.getD 5 0, h.getD 6 0, h.getD 7 0⟩
  let st := (shaK.zip w).foldl shaRound st0
  [add64 (h.getD 0 0) st.a, add64 (h.getD 1 0) st.b, add64 (h.getD 2 0) st.c,
   add64 (h.getD 3 0) st.d, add64 (h.getD 4 0) st.e, add64 (h.getD 5 0) st.f,
   add64 (h.getD 6 0) st.g, add64 (h.getD 7 0) st.h]

/-- SHA-512 padding: a 0x80 byte, zeros to 112 modulo 128, then the bit
length as a 16-byte big-endian number. -/
def sha512Pad (m : Bytes) : Bytes :=
  let l := m.length
  let zeros := (128 - (l + 17) % 128) % 128
  m ++ ((⟨0x80, by omega⟩ : Byte) :: List.replicate zeros 0) ++ natToBEBytes 16 (l * 8)

/-- Split a padded message into 128-byte blocks; fuel-driven recursion. -/
def sha512Chunks : Nat → Bytes → List Bytes
  | 0, _ => []
  | _, [] => []
  | fuel + 1, m => m.take 128 :: sha512Chunks fuel (m.drop 128)

/-- SHA-512 of a byte string, RFC 6234. -/
def sha512 (m : Bytes) : Bytes :=
  let padded := sha512Pad m
  let hh := (sha512Chunks (padded.length) padded).foldl sha512Block shaH0
  (hh.map (natToBEBytes 8)).flatten

/-- The field prime of Curve25519. -/
def p25519 : Nat := 2 ^ 255 - 19

/-- The twisted-Edwards curve constant `d` of edwards25519, RFC 8032. -/
def d25519 : Nat := 37095705934669439343138083508754565189542113879843219016388785533085940283555

/-- Field addition modulo `p25519`. -/
def fadd (a b : Nat) : Nat := (a + b) % p25519

/-- Field subtraction modulo `p25519` on `Nat`. -/
def fsub (a b : Nat) : Nat := (a + (p25519 - b % p25519)) % p25519

/-- Field multiplication modulo `p25519`. -/
def fmul (a b : Nat) : Nat := a * b % p25519

/-- An edwards25519 point in extended homogeneous coordinates. -/
structure EdPt where
  x : Nat
  y : Nat
  z : Nat
  t : Nat

/-- The complete twisted-Edwards point addition of RFC 8032 section 5.1.4
(also used for doubling). -/
def edAdd (P Q : EdPt) : EdPt :=
  let a := fmul (fsub P.y P.x) (fsub Q.y Q.x)
  let b := fmul (fadd P.y P.x) (fadd Q.y Q.x)
  let c := fmul (fmul 2 (fmul P.t Q.t)) d25519
  let dd := fmul 2 (fmul P.z Q.z)
  let e := fsub b a
  let f := fsub dd c
  let g := fadd dd c
  let h := fadd b a
  ⟨fmul e f, fmul g h, fmul f g, fmul e h⟩

/-- The neutral point of edwards25519 in extended coordinates. -/
def edZero : EdPt := ⟨0, 1, 1, 0⟩

/-- Double-and-add scalar multiplication; the first argument is fuel (one
step per scalar bit). -/
def edMulAux : Nat → Nat → EdPt → EdPt → EdPt
  | 0, _, _, acc => acc
  | fuel + 1, s, base, acc =>
    let acc' := if s % 2 = 1 then edAdd acc base else acc
    edMulAux fuel (s / 2) (edAdd base base) acc'

/-- Scalar multiplication on edwards25519 for scalars below `2^256`. -/
def edMul (s : Nat) (base : EdPt) : EdPt := edMulAux 256 s base edZero

/-- The edwards25519 base point, RFC 8032. -/
def edBase : EdPt :=
  let bx := 15112221349535400772501151409588531511454012693041857206046113283949847762202
  let by' := 46316835694926478169428394003475163141307993866256225615783033603165251855960
  ⟨bx, by', 1, fmul bx by'⟩

/-- Binary modular exponentiation; the first argument is fuel (one step per
exponent bit). -/
def powModAux : Nat → Nat → Nat → Nat → Nat → Nat
  | 0, _, _, _, acc => acc
  | fuel + 1, b, e, m, acc =>
    let acc' := if e % 2 = 1 then acc * b % m else acc
    powModAux fuel (b * b % m) (e / 2) m acc'

/-- `b ^ e` modulo `m` for exponents below `2^256`. -/
def powMod (b e m : Nat) : Nat := powModAux 256 (b % m) e m (1 % m)

/-- Field inversion modulo `p25519` by Fermat's little theorem. -/
def finv (a : Nat) : Nat := powMod a (p25519 - 2) p25519

/-- RFC 8032 point compression: the `y` coordinate in 32 little-endian bytes
with the parity of `x` in the top bit. -/
def edCompress (P : EdPt) : Bytes :=
  let zi := finv P.z
  let x := fmul P.x zi
  let y := fmul P.y zi
  natToLEBytes 32 (y + x % 2 * 2 ^ 255)

/-- The ed25519 public key of a 32-byte seed, RFC 8032 section 5.1.5: the
seed is expanded with SHA-512, the low half clamped into a scalar, and the
scalar multiple of the base point compressed.  This is the derivation
`ed25519::Pair::from_seed` of the repository's `sp_core` crate performs. -/
def ed25519Pub (seed : Bytes) : Bytes :=
  let h := sha512 seed
  let a := leNat (h.take 32)
  let s := a % 2 ^ 254 / 8 * 8 + 2 ^ 254
  edCompress (edMul s edBase)

/-- The Blake2b message-word permutation table, RFC 7693 (rows for the
twelve rounds of Blake2b; rounds ten and eleven reuse rows zero and one). -/
def blakeSigma : List (List Nat) :=
  [[0, 1, 2, 3, 4, 5, 6, 7, 8, 9, 10, 11, 12, 13, 14, 15],
   [14, 10, 4, 8, 9, 15, 13, 6, 1, 12, 0, 2, 11, 7, 5, 3],
   [11, 8, 12, 0, 5, 2, 15, 13, 10, 14, 3, 6, 7, 1, 9, 4],
   [7, 9, 3, 1, 13, 12, 11, 14, 2, 6, 5, 10, 4, 0, 15, 8],
   [9, 0, 5, 7, 2, 4, 10, 15, 14, 1, 11, 12, 6, 8, 3, 13],
   [2, 12, 6, 10, 0, 11, 8, 3, 4, 13, 7, 5, 15, 14, 1, 9],
   [12, 5, 1, 15, 14, 13, 4, 10, 0, 7, 6, 3, 9, 2, 8, 11],
   [13, 11, 7, 14, 12, 1, 3, 9, 5, 0, 15, 4, 8, 6, 2, 10],
   [6, 15, 14, 9, 11, 3, 0, 8, 12, 2, 13, 7, 1, 4, 10, 5],
   [10, 2, 8, 4, 7, 6, 1, 5, 15, 11, 9, 14, 3, 12, 13, 0],
   [0, 1, 2, 3, 4, 5, 6, 7, 8, 9, 10, 11, 12, 13, 14, 15],
   [14, 10, 4, 8, 9, 15, 13, 6, 1, 12, 0, 2, 11, 7, 5, 3]]

/-- The Blake2b mixing function G on the sixteen-word work vector `v` at
indices `a b c d` with message words `x y`, RFC 7693. -/
def blakeG (v : List Nat) (a b c d x y : Nat) : List Nat :=
  let va := add64 (add64 (v.getD a 0) (v.getD b 0)) x
  let vd := rotr64 32 (v.getD d 0 ^^^ va)
  let vc := add64 (v.getD c 0) vd
  let vb := rotr64 24 (v.getD b 0 ^^^ vc)
  let va' := add64 (add64 va vb) y
  let vd' := rotr64 16 (vd ^^^ va')
  let vc' := add64 vc vd'
  let vb' := rotr64 63 (vb ^^^ vc')
  ((((v.set a va').set b vb').set c vc').set d vd')

/-- One Blake2b round: column and diagonal mixing with the round's sigma
row selecting message words. -/
def blakeRound (m : List Nat) (v : List Nat) (s : List Nat) : List Nat :=
  let mi := fun i => m.getD (s.getD i 0) 0
  let v1 := blakeG v 0 4 8 12 (mi 0) (mi 1)
  let v2 := blakeG v1 1 5 9 13 (mi 2) (mi 3)
  let v3 := blakeG v2 2 6 10 14 (mi 4) (mi 5)
  let v4 := blakeG v3 3 7 11 15 (mi 6) (mi 7)
  let v5 := blakeG v4 0 5 10 15 (mi 8) (mi 9)
  let v6 := blakeG v5 1 6 11 12 (mi 10) (mi 11)
  let v7 := blakeG v6 2 7 8 13 (mi 12) (mi 13)
  blakeG v7 3 4 9 14 (mi 14) (mi 15)

/-- Split a 128-byte block into sixteen little-endian words; fuel-driven. -/
def leWords : Nat → Bytes → List Nat
  | 0, _ => []
  | _, [] => []
  | fuel + 1, m => leNat (m.take 8) :: leWords fuel (m.drop 8)

/-- Unkeyed Blake2b-512 of a message of at most 128 bytes (a single final
block), RFC 7693: enough for the SS58 checksum preimage. -/
def blake2b512 (m : Bytes) : Bytes :=
  let h0 := (shaH0.getD 0 0) ^^^ 0x01010040
  let h := h0 :: shaH0.drop 1
  let block := m ++ List.replicate (128 - m.length) (0 : Byte)
  let mw := leWords 128 block
  let v := h ++ shaH0
  let v12 := (v.getD 12 0) ^^^ m.length
  let v14 := (v.getD 14 0) ^^^ (2 ^ 64 - 1)
  let v' := (v.set 12 v12).set 14 v14
  let vf := blakeSigma.foldl (blakeRound mw) v'
  let hf := (List.range 8).map (fun i => (h.getD i 0) ^^^ (vf.getD i 0) ^^^ (vf.getD (i + 8) 0))
  (hf.map (natToLEBytes 8)).flatten

/-- The base58 alphabet used by SS58 (the Bitcoin alphabet). -/
def b58Alphabet : List Char :=
  "123456789ABCDEFGHJKLMNPQRSTUVWXYZabcdefghijkmnopqrstuvwxyz".data

/-- Base58 digits of a number, most significant first; fuel-driven. -/
def b58Aux : Nat → Nat → List Char → List Char
  | 0, _, acc => acc
  | _, 0, acc => acc
  | fuel + 1, x, acc => b58Aux fuel (x / 58) (b58Alphabet.getD (x % 58) '1' :: acc)

/-- Base58 encoding of a byte string: leading zero bytes become '1' digits,
the rest is the big-endian value in base 58. -/
def base58 (bs : Bytes) : String :=
  let lead := (bs.takeWhile (fun b => b == (0 : Byte))).length
  ⟨List.replicate lead '1' ++ b58Aux (bs.length * 2) (beNat bs) []⟩

/-- The bytes of a string's characters (codepoints reduced mod 256; the
strings involved are ASCII). -/
def strBytes (s : String) : Bytes := s.data.map (fun c => ⟨c.toNat % 256, by omega⟩)

/-- SS58 encoding of a 32-byte public key under the generic substrate
version byte 42, as `Ss58Codec::to_ss58check` of the repository's `sp_core`
crate produces: base58 of version byte, key, and the first two bytes of the
Blake2b-512 of the checksum preimage prefixed with "SS58PRE". -/
def ss58Encode (pub : Bytes) : String :=
  let data := (⟨42, by omega⟩ : Byte) :: pub
  let ck := (blake2b512 (strBytes "SS58PRE" ++ data)).take 2
  base58 (data ++ ck)

/-- Modelled from the spec: the closed set of supported signature schemes
(spec section 2, Crypto Adapters; the scheme types live in the repository's
`sp_core` crate, which is not under src/). -/
inductive Scheme where
  | ed25519
  | sr25519
  | ecdsa
deriving DecidableEq

/-- Modelled from the spec: the output of the Encrypted File Codec (spec
section 4.1; the codec belongs to the repository's `local` keystore module,
declared `pub mod local;` in lib.rs but absent from src/).  With no password
the SURI is stored directly; with a password the content is its symmetric
encryption under a password-derived key, modelled abstractly as the payload
tagged by the encrypting password, so that decoding under any other key
fails to parse, as section 4.1 requires. -/
structure FileContent where
  encKey : Option String
  payload : String
deriving DecidableEq

/-- Modelled from the spec: `encode(suri, password?) -> file_bytes` of the
Encrypted File Codec (spec section 4.1). -/
def encodeFile (suri : String) (pw : Option String) : FileContent := ⟨pw, suri⟩

/-- Modelled from the spec: `decode(file_bytes, password?)` of the Encrypted
File Codec (spec section 4.1); decoding under a key other than the encoding
one fails rather than returning mis-decrypted bytes. -/
def decodeFile (c : FileContent) (pw : Option String) : Option String :=
  if c.encKey = pw then some c.payload else none

/-- Modelled from the spec: a scheme-tagged keypair (spec section 3,
KeyPair); never serialized whole, represented by its scheme and its SURI
recovery form, from which the adapter re-derives it. -/
structure KeyPair where
  scheme : Scheme
  suri : String
deriving DecidableEq

/-- Modelled from the spec: parsing a raw hex seed string, `0x` followed by
64 hex digits giving 32 bytes (spec section 3, SURI: "a raw hex seed");
`none` when the string does not parse as a seed. -/
def parseSeed (s : String) : Option Bytes :=
  match s.data with
  | '0' :: 'x' :: rest => if rest.length = 64 then hexDecodeChars rest else none
  | _ => none

/-- Modelled from the spec: a tag byte distinguishing the schemes where the
abstract adapters need distinct public keys. -/
def schemeTag : Scheme → Byte
  | .ed25519 => 0
  | .sr25519 => 1
  | .ecdsa => 2

/-- Modelled from the spec: `from_seed` of the Crypto Adapters (spec section
4.3), the public key derived from a parsed 32-byte seed.  The ed25519
adapter is the real RFC 8032 derivation that the repository's `sp_core`
crate performs; the sr25519 and ecdsa adapters, whose mathematics the spec
leaves opaque, are abstracted as injective taggings. -/
def fromSeedPub : Scheme → Bytes → Bytes
  | .ed25519, b => ed25519Pub b
  | .sr25519, b => (1 : Byte) :: b
  | .ecdsa, b => (2 : Byte) :: b

/-- Modelled from the spec: the public key a scheme's adapter derives from a
SURI string (spec sections 3 and 4.3): a raw hex seed goes through the
scheme's seed derivation, any other string is treated as a phrase-form SURI
whose derivation the spec leaves opaque, abstracted as a tagged injection. -/
def pubOf (S : Scheme) (suri : String) : Bytes :=
  match parseSeed suri with
  | some b => fromSeedPub S b
  | none => schemeTag S :: strBytes suri

/-- The public key of a keypair, derived from its recovery form by the
scheme's adapter. -/
def KeyPair.public (k : KeyPair) : Bytes := pubOf k.scheme k.suri

/-- Modelled from the spec: the In-Memory Cache (spec section 4.4), a
mapping from (scheme, public-key bytes) to loaded keypair material. -/
abbrev Cache := List (Scheme × Bytes × KeyPair)

/-- Modelled from the spec: one keystore instance (spec section 4.5): it
owns the optional password and the cache; the directory it is pointed at is
threaded separately so that reopening at the same path can be expressed. -/
structure Store where
  password : Option String
  cache : Cache
deriving DecidableEq

/-- Modelled from the spec: `open(directory_path, password?)` (spec section
4.5); a fresh instance starts with an empty cache and loads nothing
eagerly. -/
def openStore (pw : Option String) : Store := ⟨pw, []⟩

/-- Modelled from the spec: the store directory as the Key Directory Index
sees it (spec section 4.2): filenames mapped to file contents. -/
abbrev Dir := List (String × FileContent)

/-- Writing a file: the new entry replaces any entry of the same name
(atomic rename over the final path, spec section 4.2). -/
def dirInsert (name : String) (c : FileContent) (d : Dir) : Dir :=
  (name, c) :: d.filter (fun e => !(e.1 == name))

/-- Reading the file of a given name, if present. -/
def dirLookup (name : String) (d : Dir) : Option FileContent :=
  (d.find? (fun e => e.1 == name)).map (fun e => e.2)

/-- Modelled from the spec: `path_for(key_type, public_key_bytes)` of the
Key Directory Index (spec sections 4.2 and 6): the filename is the lowercase
hex of the KeyTypeId bytes followed by the lowercase hex of the public key. -/
def keyFileName (kt : KeyTypeId) (pub : Bytes) : String :=
  hexEncode kt.toBytes ++ hexEncode pub

/-- Modelled from the spec: parsing a directory entry name back into a
KeyTypeId and public key (spec sections 4.2 and 6); names that are not
even-length hex or decode to four bytes or fewer do not conform to the
`hex(KeyTypeId) || hex(public key)` pattern and yield `none`. -/
def parseFileName (name : String) : Option (KeyTypeId × Bytes) :=
  match hexDecodeChars name.data with
  | some (b0 :: b1 :: b2 :: b3 :: rest) =>
    if rest.isEmpty then none else some (⟨b0, b1, b2, b3⟩, rest)
  | _ => none

/-- Cache lookup by scheme and public-key bytes (spec section 4.4). -/
def cacheLookup (S : Scheme) (pub : Bytes) (c : Cache) : Option KeyPair :=
  (c.find? (fun e => e.1 == S && e.2.1 == pub)).map (fun e => e.2.2)

/-- The first directory entry whose filename parses to the given public key
under any KeyTypeId (spec section 4.5: `key_pair` locates the entry "across
all KeyTypeIds"). -/
def findByPub (pub : Bytes) (d : Dir) : Option FileContent :=
  (d.find? (fun e =>
    match parseFileName e.1 with
    | some kp => kp.2 == pub
    | none => false)).map (fun e => e.2)

/-- Modelled from the spec: `generate::<S>()` of the Local Keystore (spec
section 4.5; the operation lives in the repository's `local` module, absent
from src/): a fresh random keypair — the freshly drawn SURI is passed in
explicitly as the randomness — is encoded and written to the file computed
from the scheme's key type and the derived public key, inserted into the
cache, and returned. -/
def generate (S : Scheme) (kt : KeyTypeId) (freshSuri : String) (st : Store) (d : Dir) :
    Store × Dir × KeyPair :=
  let pair : KeyPair := ⟨S, freshSuri⟩
  let pub := pubOf S freshSuri
  let d' := dirInsert (keyFileName kt pub) (encodeFile freshSuri st.password) d
  ({ st with cache := (S, pub, pair) :: st.cache }, d', pair)

/-- Modelled from the spec: `insert_ephemeral_from_seed::<S>(seed)` (spec
section 4.5, from the `local` module absent from src/): the keypair derived
from a raw seed is inserted into the cache only — the directory is returned
untouched — and `InvalidSeed` is returned when the seed string does not
parse. -/
def insert_ephemeral_from_seed (S : Scheme) (seed : String) (st : Store) (d : Dir) :
    Except Error (Store × Dir × KeyPair) :=
  match parseSeed seed with
  | none => .error .invalidSeed
  | some _ =>
    let pair : KeyPair := ⟨S, seed⟩
    .ok ({ st with cache := (S, pubOf S seed, pair) :: st.cache }, d, pair)

/-- Modelled from the spec: `key_pair::<S>(public)` (spec section 4.5, from
the `local` module absent from src/): a cache hit returns immediately; on a
miss the store locates the entry matching the public key across all
KeyTypeIds, decodes it under its password, re-derives the pair from the
decoded SURI, caches and returns it; a missing file or a decode failure
(including the wrong-password case) is `PairNotFound`. -/
def key_pair (S : Scheme) (pub : Bytes) (st : Store) (d : Dir) :
    Except Error (Store × KeyPair) :=
  match cacheLookup S pub st.cache with
  | some pair => .ok (st, pair)
  | none =>
    match findByPub pub d with
    | none => .error (.pairNotFound (hexEncode pub))
    | some c =>
      match decodeFile c st.password with
      | none => .error (.pairNotFound (hexEncode pub))
      | some suri =>
        let pair : KeyPair := ⟨S, suri⟩
        .ok ({ st with cache := (S, pub, pair) :: st.cache }, pair)

/-- Modelled from the spec: `key_pair_by_type::<S>(public, key_type)` (spec
section 4.5, from the `local` module absent from src/): as `key_pair` but
restricted to the one KeyTypeId, whose file path is computed directly. -/
def key_pair_by_type (S : Scheme) (pub : Bytes) (kt : KeyTypeId) (st : Store) (d : Dir) :
    Except Error (Store × KeyPair) :=
  match cacheLookup S pub st.cache with
  | some pair => .ok (st, pair)
  | none =>
    match dirLookup (keyFileName kt pub) d with
    | none => .error (.pairNotFound (hexEncode pub))
    | some c =>
      match decodeFile c st.password with
      | none => .error (.pairNotFound (hexEncode pub))
      | some suri =>
        let pair : KeyPair := ⟨S, suri⟩
        .ok ({ st with cache := (S, pub, pair) :: st.cache }, pair)

/-- Modelled from the spec: `insert_unknown(key_type, suri, public_bytes)`
(spec section 4.5, from the `local` module absent from src/): the SURI is
written verbatim, encoded under the store's password, to the path computed
from the key type and the supplied public key, with no validation that the
SURI derives that key. -/
def insert_unknown (kt : KeyTypeId) (suri : String) (pub : Bytes) (st : Store) (d : Dir) :
    Dir :=
  dirInsert (keyFileName kt pub) (encodeFile suri st.password) d

/-- The public keys read off the directory for one key type: every entry
whose filename parses under the `hex(KeyTypeId) || hex(public key)` pattern
with a matching key type contributes its public-key bytes; non-conforming
names are skipped (spec sections 4.2 and 4.5). -/
def diskPubs (kt : KeyTypeId) (d : Dir) : List Bytes :=
  d.filterMap (fun e =>
    match parseFileName e.1 with
    | some kp => if kp.1 == kt then some kp.2 else none
    | none => none)

/-- The public keys of one scheme held in the cache. -/
def cachePubs (S : Scheme) (c : Cache) : List Bytes :=
  c.filterMap (fun e => if e.1 == S then some e.2.1 else none)

/-- Modelled from the spec: `public_keys::<S>()` (spec sections 4.5 and 8,
from the `local` module absent from src/): the keys of the scheme held in
the instance's cache — which is where ephemeral keys live — together with
the keys enumerated from the directory under the scheme's key type, parsed
out of the filenames without touching file contents. -/
def public_keys (S : Scheme) (kt : KeyTypeId) (st : Store) (d : Dir) : List Bytes :=
  cachePubs S st.cache ++ diskPubs kt d

/-- An sr25519 public key as the facade passes it through
(`sp_core::sr25519::Public`, opaque to lib.rs). -/
structure Sr25519Public where
  bytes : Bytes
deriving DecidableEq

/-- An ed25519 public key as the facade passes it through
(`sp_application_crypto::ed25519::Public`, opaque to lib.rs). -/
structure Ed25519Public where
  bytes : Bytes
deriving DecidableEq

/-- An ecdsa public key as the facade passes it through
(`sp_application_crypto::ecdsa::Public`, opaque to lib.rs). -/
structure EcdsaPublic where
  bytes : Bytes
deriving DecidableEq

/-- `sp_core::crypto::CryptoTypePublicPair`: a scheme identifier together
with public-key bytes, opaque to lib.rs. -/
structure CryptoTypePublicPair where
  cryptoId : Bytes
  pubBytes : Bytes
deriving DecidableEq

/-- VRF transcript data as the facade passes it through
(`sp_core::vrf::VRFTranscriptData`, opaque to lib.rs). -/
structure VRFTranscriptData where
  label : String
deriving DecidableEq

/-- A VRF signature as the facade passes it through
(`sp_core::vrf::VRFSignature`, opaque to lib.rs). -/
structure VRFSignature where
  out : Bytes
  proof : Bytes
deriving DecidableEq

/-- The `CryptoStore` capability surface (`sp_core::traits::CryptoStore`) a
backend implements: one field per operation of the trait as lib.rs invokes
it, with the `async` wrappers of the source read as plain functions. -/
structure CryptoStoreIface where
  sr25519_public_keys : KeyTypeId → List Sr25519Public
  sr25519_generate_new : KeyTypeId → Option String → Except TraitError Sr25519Public
  ed25519_public_keys : KeyTypeId → List Ed25519Public
  ed25519_generate_new : KeyTypeId → Option String → Except TraitError Ed25519Public
  ecdsa_public_keys : KeyTypeId → List EcdsaPublic
  ecdsa_generate_new : KeyTypeId → Option String → Except TraitError EcdsaPublic
  insert_unknown : KeyTypeId → String → Bytes → Except Unit Unit
  supported_keys : KeyTypeId → List CryptoTypePublicPair → Except TraitError (List CryptoTypePublicPair)
  keys : KeyTypeId → Except TraitError (List CryptoTypePublicPair)
  has_keys : List (Bytes × KeyTypeId) → Bool
  sign_with : KeyTypeId → CryptoTypePublicPair → Bytes → Except TraitError Bytes
  sr25519_vrf_sign : KeyTypeId → Sr25519Public → VRFTranscriptData → Except TraitError VRFSignature

/-- `pub struct Keystore(Box<dyn CryptoStore>)`, lines 90-99 of
src/client/keystore/src/lib.rs: the facade holding its configured backend. -/
structure Keystore where
  backend : CryptoStoreIface

/-- `Keystore::new`, lib.rs line 96. -/
def Keystore.new (backend : CryptoStoreIface) : Keystore := ⟨backend⟩

/-- lib.rs lines 103-105: `self.0.sr25519_public_keys(id).await`. -/
def Keystore.sr25519_public_keys (k : Keystore) (id : KeyTypeId) : List Sr25519Public :=
  k.backend.sr25519_public_keys id

/-- lib.rs lines 107-113: `self.0.sr25519_generate_new(id, seed).await`. -/
def Keystore.sr25519_generate_new (k : Keystore) (id : KeyTypeId) (seed : Option String) :
    Except TraitError Sr25519Public :=
  k.backend.sr25519_generate_new id seed

/-- lib.rs lines 115-117: `self.0.ed25519_public_keys(id).await`. -/
def Keystore.ed25519_public_keys (k : Keystore) (id : KeyTypeId) : List Ed25519Public :=
  k.backend.ed25519_public_keys id

/-- lib.rs lines 119-125: `self.0.ed25519_generate_new(id, seed).await`. -/
def Keystore.ed25519_generate_new (k : Keystore) (id : KeyTypeId) (seed : Option String) :
    Except TraitError Ed25519Public :=
  k.backend.ed25519_generate_new id seed

/-- lib.rs lines 127-129: `self.0.ecdsa_public_keys(id).await`. -/
def Keystore.ecdsa_public_keys (k : Keystore) (id : KeyTypeId) : List EcdsaPublic :=
  k.backend.ecdsa_public_keys id

/-- lib.rs lines 131-137: `self.0.ecdsa_generate_new(id, seed).await`. -/
def Keystore.ecdsa_generate_new (k : Keystore) (id : KeyTypeId) (seed : Option String) :
    Except TraitError EcdsaPublic :=
  k.backend.ecdsa_generate_new id seed

/-- lib.rs lines 139-141: `self.0.insert_unknown(key_type, suri, public).await`. -/
def Keystore.insert_unknown (k : Keystore) (key_type : KeyTypeId) (suri : String)
    (pub : Bytes) : Except Unit Unit :=
  k.backend.insert_unknown key_type suri pub

/-- lib.rs lines 143-149: `self.0.supported_keys(id, keys).await`. -/
def Keystore.supported_keys (k : Keystore) (id : KeyTypeId)
    (ks : List CryptoTypePublicPair) : Except TraitError (List CryptoTypePublicPair) :=
  k.backend.supported_keys id ks

/-- lib.rs lines 151-153: `self.0.keys(id).await`. -/
def Keystore.keys (k : Keystore) (id : KeyTypeId) :
    Except TraitError (List CryptoTypePublicPair) :=
  k.backend.keys id

/-- lib.rs lines 155-157: `self.0.has_keys(public_keys).await`. -/
def Keystore.has_keys (k : Keystore) (public_keys : List (Bytes × KeyTypeId)) : Bool :=
  k.backend.has_keys public_keys

/-- lib.rs lines 159-166: `self.0.sign_with(id, key, msg).await`. -/
def Keystore.sign_with (k : Keystore) (id : KeyTypeId) (key : CryptoTypePublicPair)
    (msg : Bytes) : Except TraitError Bytes :=
  k.backend.sign_with id key msg

/-- lib.rs lines 168-175: `self.0.sr25519_vrf_sign(key_type, public,
transcript_data).await`. -/
def Keystore.sr25519_vrf_sign (k : Keystore) (key_type : KeyTypeId)
    (pub : Sr25519Public) (transcript_data : VRFTranscriptData) :
    Except TraitError VRFSignature :=
  k.backend.sr25519_vrf_sign key_type pub transcript_data

deriving instance DecidableEq for Except

/-- The seed string of the `test_insert_ephemeral_from_seed` test in lib.rs. -/
def c7seed : String := "0x3d97c819d68f9bafa7d6e79cb991eebcd77d966c5334c0b94d9e1fa7ad0869dc"

/-- The ed25519 public key that seed derives to — the key whose SS58
encoding the test pins down. -/
def c7pub : Bytes :=
  [0x37, 0x81, 0x27, 0x33, 0xbd, 0xae, 0x38, 0x79, 0xc0, 0xe1, 0xa5, 0x5b,
   0x8c, 0x98, 0x47, 0x6f, 0x40, 0x25, 0xf3, 0x14, 0x06, 0x53, 0x42, 0x38,
   0x0d, 0xbb, 0x4b, 0xcd, 0x44, 0x3a, 0xf8, 0xcb]

/-- Modelled from the spec: one mutating step of the enumeration scenario of
spec section 8 — generating a persisted key or inserting an ephemeral one
(operations of the `local` module absent from src/). -/
inductive StoreOp where
  | gen (S : Scheme) (kt : KeyTypeId) (suri : String)
  | eph (S : Scheme) (seed : String)
deriving DecidableEq

/-- Run one operation on a store instance and its directory; an ephemeral
insertion whose seed does not parse leaves both unchanged. -/
def runOp (p : Store × Dir) (op : StoreOp) : Store × Dir :=
  match op with
  | .gen S kt suri =>
    let r := generate S kt suri p.1 p.2
    (r.1, r.2.1)
  | .eph S seed =>
    match insert_ephemeral_from_seed S seed p.1 p.2 with
    | .ok r => (r.1, r.2.1)
    | .error _ => p

/-- Run a sequence of operations left to right. -/
def runOps (p : Store × Dir) (ops : List StoreOp) : Store × Dir :=
  ops.foldl runOp p

/-- The public keys the generate operations of a trace write to disk under
the given key type. -/
def genPubs (kt : KeyTypeId) (ops : List StoreOp) : List Bytes :=
  ops.filterMap fun op =>
    match op with
    | .gen S' kt' suri => if kt' = kt then some (pubOf S' suri) else none
    | .eph _ _ => none

/-- The public keys of the scheme's persisted (generated) keys of a trace. -/
def persistedPubs (S : Scheme) (ops : List StoreOp) : List Bytes :=
  ops.filterMap fun op =>
    match op with
    | .gen S' _ suri => if S' = S then some (pubOf S' suri) else none
    | .eph _ _ => none

/-- The public keys of the scheme's ephemeral keys of a trace (those whose
seed parses). -/
def ephPubs (S : Scheme) (ops : List StoreOp) : List Bytes :=
  ops.filterMap fun op =>
    match op with
    | .gen _ _ _ => none
    | .eph S' seed =>
      if S' = S ∧ (parseSeed seed).isSome then some (pubOf S' seed) else none

/-- The cache entries a trace adds, in trace order. -/
def cacheAdds (ops : List StoreOp) : Cache :=
  ops.filterMap fun op =>
    match op with
    | .gen S' _ suri => some (S', pubOf S' suri, ⟨S', suri⟩)
    | .eph S' seed =>
      if (parseSeed seed).isSome then some (S', pubOf S' seed, ⟨S', seed⟩) else none

/-- Modelled from the spec: the scheme-to-key-type discipline of the
application-level API (each scheme's typed operations use that scheme's own
KeyTypeId): within a trace examined for scheme `S` under key type `kt`, a
generate operation uses `kt` exactly when it is for `S`. -/
def opOk (S : Scheme) (kt : KeyTypeId) : StoreOp → Prop
  | .gen S' kt' _ => S' = S ↔ kt' = kt
  | .eph _ _ => True

instance opOk.instDecidable (S : Scheme) (kt : KeyTypeId) (op : StoreOp) :
    Decidable (opOk S kt op) :=
  match op with
  | .gen S' kt' _ => inferInstanceAs (Decidable (S' = S ↔ kt' = kt))
  | .eph _ _ => inferInstanceAs (Decidable True)

/-- The concrete operation trace used to instantiate the enumeration
theorem: two persisted and two ephemeral sr25519 keys, plus an ecdsa key of
each kind. -/
def c4ops : List StoreOp :=
  [.gen .sr25519 ktSR25519 "//Alice",
   .eph .sr25519 "0x3d97c819d68f9bafa7d6e79cb991eebcd770966c5334c0b94d9e1fa7ad0869dc",
   .gen .sr25519 ktSR25519 "//Bob",
   .eph .sr25519 "0x3d97c819d68f9bafa7d6e79cb991eebcd771966c5334c0b94d9e1fa7ad0869dc",
   .gen .ecdsa ktECDSA "//Charlie",
   .eph .ecdsa "0x3d97c819d68f9bafa7d6e79cb991eebcd772966c5334c0b94d9e1fa7ad0869dc"]

theorem hexCharVal_hexDigitChar : ∀ n : Fin 16, hexCharVal (hexDigitChar n) = some n := by
  decide

theorem hexDecodeChars_encode (bs : Bytes) :
    hexDecodeChars ((bs.map hexOfByte).flatten) = some bs := by
  induction bs with
  | nil => rfl
  | cons b rest ih =>
    have hb : (⟨b.val / 16 * 16 + b.val % 16, by omega⟩ : Byte) = b := by
      apply Fin.ext
      show b.val / 16 * 16 + b.val % 16 = b.val
      omega
    simp only [List.map_cons, List.flatten_cons, hexOfByte, List.cons_append, List.nil_append,
      List.append_eq, hexDecodeChars, hexCharVal_hexDigitChar, ih, hb]

theorem natToLEBytes_length (n x : Nat) : (natToLEBytes n x).length = n := by
  induction n generalizing x with
  | zero => rfl
  | succ m ih => simp [natToLEBytes, ih]

theorem hexEncode_append (a b : Bytes) :
    hexEncode (a ++ b) = hexEncode a ++ hexEncode b := by
  simp only [hexEncode]
  have : (⟨(a.map hexOfByte).flatten⟩ : String) ++ ⟨(b.map hexOfByte).flatten⟩
      = ⟨(a.map hexOfByte).flatten ++ (b.map hexOfByte).flatten⟩ := rfl
  rw [this]
  simp [List.map_append]

theorem ed25519Pub_ne_nil (seed : Bytes) : ed25519Pub seed ≠ [] := by
  have h : (ed25519Pub seed).length = 32 := by
    simp [ed25519Pub, edCompress, natToLEBytes_length]
  intro hnil
  rw [hnil] at h
  simp at h

theorem pubOf_ne_nil (S : Scheme) (suri : String) : pubOf S suri ≠ [] := by
  unfold pubOf
  cases hp : parseSeed suri with
  | none => simp
  | some b =>
    cases S with
    | ed25519 => exact ed25519Pub_ne_nil b
    | sr25519 => simp [fromSeedPub]
    | ecdsa => simp [fromSeedPub]

theorem parseFileName_keyFileName (kt : KeyTypeId) (pub : Bytes) (hpub : pub ≠ []) :
    parseFileName (keyFileName kt pub) = some (kt, pub) := by
  have hdata : (keyFileName kt pub).data = ((kt.toBytes ++ pub).map hexOfByte).flatten := by
    rw [keyFileName, ← hexEncode_append]
    rfl
  rw [parseFileName, hdata, hexDecodeChars_encode]
  obtain ⟨b0, b1, b2, b3⟩ := kt
  cases pub with
  | nil => exact absurd rfl hpub
  | cons p ps => simp [KeyTypeId.toBytes]

theorem decodeFile_encodeFile (suri : String) (pw : Option String) :
    decodeFile (encodeFile suri pw) pw = some suri := by
  simp [decodeFile, encodeFile]

theorem decodeFile_wrong_key (suri : String) (pw pw' : Option String) (h : pw ≠ pw') :
    decodeFile (encodeFile suri pw) pw' = none := by
  simp [decodeFile, encodeFile, h]

theorem findByPub_dirInsert_self (kt : KeyTypeId) (pub : Bytes) (c : FileContent)
    (d : Dir) (hpub : pub ≠ []) :
    findByPub pub (dirInsert (keyFileName kt pub) c d) = some c := by
  rw [findByPub, dirInsert, List.find?_cons_of_pos]
  · rfl
  · show (match parseFileName (keyFileName kt pub) with
      | some kp => kp.2 == pub
      | none => false) = true
    rw [parseFileName_keyFileName kt pub hpub]
    simp

theorem dirLookup_dirInsert_self (name : String) (c : FileContent) (d : Dir) :
    dirLookup name (dirInsert name c d) = some c := by
  rw [dirLookup, dirInsert, List.find?_cons_of_pos]
  · rfl
  · simp

theorem cacheLookup_nil (S : Scheme) (pub : Bytes) : cacheLookup S pub [] = none := rfl

theorem cacheLookup_head (S : Scheme) (pub : Bytes) (pair : KeyPair) (rest : Cache) :
    cacheLookup S pub ((S, pub, pair) :: rest) = some pair := by
  rw [cacheLookup, List.find?_cons_of_pos]
  · rfl
  · simp

theorem key_pair_fresh_dirInsert (S : Scheme) (kt : KeyTypeId) (suri : String)
    (pw pw' : Option String) (d : Dir) :
    key_pair S (pubOf S suri) (openStore pw')
        (dirInsert (keyFileName kt (pubOf S suri)) (encodeFile suri pw) d) =
      match decodeFile (encodeFile suri pw) pw' with
      | some s =>
        .ok ({ password := pw', cache := [(S, pubOf S suri, ⟨S, s⟩)] }, (⟨S, s⟩ : KeyPair))
      | none => .error (.pairNotFound (hexEncode (pubOf S suri))) := by
  rw [key_pair]
  rw [show (openStore pw').cache = [] from rfl, cacheLookup_nil,
    findByPub_dirInsert_self kt _ _ d (pubOf_ne_nil S suri)]
  dsimp only [openStore]
  cases hd : decodeFile (encodeFile suri pw) pw' with
  | none => rfl
  | some s => rfl

/-- C1: Password gating.  A keypair generated by a store opened with
password `P` is retrievable via `key_pair` from a store instance reopened at
the same directory with the same password `P` (and equals the generated
pair), while a store opened with no password, or with a different password
`Q`, fails retrieval with `PairNotFound` — never returning a keypair derived
from mis-decrypted bytes, since it returns no keypair at all. -/
theorem c1_password_gating (S : Scheme) (kt : KeyTypeId) (suri P Q : String) (d : Dir)
    (hQ : Q ≠ P) :
    (generate S kt suri (openStore (some P)) d).2.2 = (⟨S, suri⟩ : KeyPair)
    ∧ key_pair S (pubOf S suri) (openStore (some P))
        (generate S kt suri (openStore (some P)) d).2.1 =
      .ok (⟨some P, [(S, pubOf S suri, ⟨S, suri⟩)]⟩, (⟨S, suri⟩ : KeyPair))
    ∧ key_pair S (pubOf S suri) (openStore none)
        (generate S kt suri (openStore (some P)) d).2.1 =
      .error (.pairNotFound (hexEncode (pubOf S suri)))
    ∧ key_pair S (pubOf S suri) (openStore (some Q))
        (generate S kt suri (openStore (some P)) d).2.1 =
      .error (.pairNotFound (hexEncode (pubOf S suri))) := by
  have hg : (generate S kt suri (openStore (some P)) d).2.1
      = dirInsert (keyFileName kt (pubOf S suri)) (encodeFile suri (some P)) d := rfl
  refine ⟨rfl, ?_, ?_, ?_⟩
  · rw [hg, key_pair_fresh_dirInsert, decodeFile_encodeFile]
  · rw [hg, key_pair_fresh_dirInsert,
      decodeFile_wrong_key suri (some P) none (by simp)]
  · rw [hg, key_pair_fresh_dirInsert,
      decodeFile_wrong_key suri (some P) (some Q) (by simp [hQ, Ne.symm hQ])]

theorem c1_password_gating_witness :
    ("wrong" : String) ≠ "password"
    ∧ ((generate .sr25519 ktSR25519 "//Alice" (openStore (some "password")) []).2.2
        = (⟨.sr25519, "//Alice"⟩ : KeyPair)
    ∧ key_pair .sr25519 (pubOf .sr25519 "//Alice") (openStore (some "password"))
        (generate .sr25519 ktSR25519 "//Alice" (openStore (some "password")) []).2.1 =
      .ok (⟨some "password", [(.sr25519, pubOf .sr25519 "//Alice", ⟨.sr25519, "//Alice"⟩)]⟩,
           (⟨.sr25519, "//Alice"⟩ : KeyPair))
    ∧ key_pair .sr25519 (pubOf .sr25519 "//Alice") (openStore none)
        (generate .sr25519 ktSR25519 "//Alice" (openStore (some "password")) []).2.1 =
      .error (.pairNotFound (hexEncode (pubOf .sr25519 "//Alice")))
    ∧ key_pair .sr25519 (pubOf .sr25519 "//Alice") (openStore (some "wrong"))
        (generate .sr25519 ktSR25519 "//Alice" (openStore (some "password")) []).2.1 =
      .error (.pairNotFound (hexEncode (pubOf .sr25519 "//Alice")))) :=
  ⟨by decide, c1_password_gating .sr25519 ktSR25519 "//Alice" "password" "wrong" [] (by decide)⟩

/-- C3: Generate/retrieve round-trip.  For every scheme, `generate`
followed by `key_pair` at the returned public key succeeds and returns a
keypair whose public key equals the generated one — both on the same store
instance (a cache hit) and on a freshly reopened instance pointed at the
same directory with the same password (a disk read). -/
theorem c3_generate_roundtrip (S : Scheme) (kt : KeyTypeId) (suri : String)
    (pw : Option String) (d : Dir) :
    key_pair S (pubOf S suri) (generate S kt suri (openStore pw) d).1
        (generate S kt suri (openStore pw) d).2.1 =
      .ok ((generate S kt suri (openStore pw) d).1, (⟨S, suri⟩ : KeyPair))
    ∧ key_pair S (pubOf S suri) (openStore pw)
        (generate S kt suri (openStore pw) d).2.1 =
      .ok (⟨pw, [(S, pubOf S suri, ⟨S, suri⟩)]⟩, (⟨S, suri⟩ : KeyPair))
    ∧ (⟨S, suri⟩ : KeyPair).public = pubOf S suri := by
  refine ⟨?_, ?_, rfl⟩
  · rw [key_pair]
    rw [show (generate S kt suri (openStore pw) d).1.cache
        = (S, pubOf S suri, ⟨S, suri⟩) :: [] from rfl]
    rw [cacheLookup_head]
  · have hg : (generate S kt suri (openStore pw) d).2.1
        = dirInsert (keyFileName kt (pubOf S suri)) (encodeFile suri pw) d := rfl
    rw [hg, key_pair_fresh_dirInsert, decodeFile_encodeFile]

/-- C2: Ephemeral non-persistence.  For every scheme and every seed string
that parses, `insert_ephemeral_from_seed` succeeds, returns the derived
keypair, and leaves the directory untouched; a freshly opened store at the
same directory (holding no file for that public key, in particular over the
empty directory of the test) fails `key_pair` for it with `PairNotFound`. -/
theorem c2_ephemeral_non_persistence (S : Scheme) (seed : String) (b : Bytes)
    (pw pw' : Option String) (d : Dir)
    (hparse : parseSeed seed = some b)
    (hfresh : findByPub (pubOf S seed) d = none) :
    insert_ephemeral_from_seed S seed (openStore pw) d =
      .ok (⟨pw, [(S, pubOf S seed, ⟨S, seed⟩)]⟩, d, (⟨S, seed⟩ : KeyPair))
    ∧ key_pair S (pubOf S seed) (openStore pw') d =
      .error (.pairNotFound (hexEncode (pubOf S seed))) := by
  constructor
  · rw [insert_ephemeral_from_seed, hparse]
    rfl
  · rw [key_pair, show (openStore pw').cache = [] from rfl, cacheLookup_nil, hfresh]

theorem c2_ephemeral_non_persistence_witness :
    parseSeed "0x3d97c819d68f9bafa7d6e79cb991eebcd77d966c5334c0b94d9e1fa7ad0869dc"
      = some [0x3d, 0x97, 0xc8, 0x19, 0xd6, 0x8f, 0x9b, 0xaf, 0xa7, 0xd6, 0xe7, 0x9c,
              0xb9, 0x91, 0xee, 0xbc, 0xd7, 0x7d, 0x96, 0x6c, 0x53, 0x34, 0xc0, 0xb9,
              0x4d, 0x9e, 0x1f, 0xa7, 0xad, 0x08, 0x69, 0xdc]
    ∧ findByPub (pubOf .sr25519 "0x3d97c819d68f9bafa7d6e79cb991eebcd77d966c5334c0b94d9e1fa7ad0869dc") [] = none
    ∧ (insert_ephemeral_from_seed .sr25519
        "0x3d97c819d68f9bafa7d6e79cb991eebcd77d966c5334c0b94d9e1fa7ad0869dc"
        (openStore none) [] =
      .ok (⟨none, [(.sr25519,
          pubOf .sr25519 "0x3d97c819d68f9bafa7d6e79cb991eebcd77d966c5334c0b94d9e1fa7ad0869dc",
          ⟨.sr25519, "0x3d97c819d68f9bafa7d6e79cb991eebcd77d966c5334c0b94d9e1fa7ad0869dc"⟩)]⟩,
        [],
        (⟨.sr25519, "0x3d97c819d68f9bafa7d6e79cb991eebcd77d966c5334c0b94d9e1fa7ad0869dc"⟩ : KeyPair))
    ∧ key_pair .sr25519
        (pubOf .sr25519 "0x3d97c819d68f9bafa7d6e79cb991eebcd77d966c5334c0b94d9e1fa7ad0869dc")
        (openStore none) [] =
      .error (.pairNotFound (hexEncode
        (pubOf .sr25519 "0x3d97c819d68f9bafa7d6e79cb991eebcd77d966c5334c0b94d9e1fa7ad0869dc")))) :=
  ⟨by decide, by decide,
   c2_ephemeral_non_persistence .sr25519
     "0x3d97c819d68f9bafa7d6e79cb991eebcd77d966c5334c0b94d9e1fa7ad0869dc"
     [0x3d, 0x97, 0xc8, 0x19, 0xd6, 0x8f, 0x9b, 0xaf, 0xa7, 0xd6, 0xe7, 0x9c,
      0xb9, 0x91, 0xee, 0xbc, 0xd7, 0x7d, 0x96, 0x6c, 0x53, 0x34, 0xc0, 0xb9,
      0x4d, 0x9e, 0x1f, 0xa7, 0xad, 0x08, 0x69, 0xdc]
     none none [] (by decide) (by decide)⟩

/-- C6: insert_unknown round-trip.  Storing a SURI via `insert_unknown`
under a key type and a public key which that SURI derives to for scheme `S`,
then retrieving with `key_pair_by_type` at that public key and key type,
succeeds and returns a keypair whose public key equals the supplied one. -/
theorem c6_insert_unknown_roundtrip (S : Scheme) (kt : KeyTypeId) (suri : String)
    (pub : Bytes) (pw : Option String) (d : Dir)
    (hpub : pubOf S suri = pub) :
    key_pair_by_type S pub kt (openStore pw)
        (insert_unknown kt suri pub (openStore pw) d) =
      .ok (⟨pw, [(S, pub, ⟨S, suri⟩)]⟩, (⟨S, suri⟩ : KeyPair))
    ∧ (⟨S, suri⟩ : KeyPair).public = pub := by
  constructor
  · rw [key_pair_by_type, show (openStore pw).cache = [] from rfl, cacheLookup_nil,
      insert_unknown, dirLookup_dirInsert_self]
    dsimp only [openStore]
    rw [decodeFile_encodeFile]
  · rw [KeyPair.public]
    exact hpub

theorem c6_insert_unknown_roundtrip_witness :
    pubOf .sr25519 "//Alice" = pubOf .sr25519 "//Alice"
    ∧ (key_pair_by_type .sr25519 (pubOf .sr25519 "//Alice") ktSR25519 (openStore none)
        (insert_unknown ktSR25519 "//Alice" (pubOf .sr25519 "//Alice") (openStore none) []) =
      .ok (⟨none, [(.sr25519, pubOf .sr25519 "//Alice", ⟨.sr25519, "//Alice"⟩)]⟩,
           (⟨.sr25519, "//Alice"⟩ : KeyPair))
    ∧ (⟨.sr25519, "//Alice"⟩ : KeyPair).public = pubOf .sr25519 "//Alice") :=
  ⟨rfl, c6_insert_unknown_roundtrip .sr25519 ktSR25519 "//Alice"
    (pubOf .sr25519 "//Alice") none [] rfl⟩

theorem diskPubs_filter_ne (kt : KeyTypeId) (name : String) (d : Dir)
    (hbad : parseFileName name = none) :
    diskPubs kt (d.filter (fun e => !(e.1 == name))) = diskPubs kt d := by
  induction d with
  | nil => rfl
  | cons e rest ih =>
    by_cases he : e.1 = name
    · have hf : (e.1 == name) = true := by simp [he]
      have hnone : parseFileName e.1 = none := he ▸ hbad
      simp only [List.filter_cons, hf, Bool.not_true, Bool.false_eq_true, if_false,
        diskPubs, List.filterMap_cons, hnone]
      exact ih
    · have hf : (e.1 == name) = false := by simp [he]
      simp only [List.filter_cons, hf, Bool.not_false, if_true, diskPubs,
        List.filterMap_cons]
      rw [show List.filterMap _ (List.filter _ rest) = diskPubs kt (List.filter (fun e => !(e.1 == name)) rest) from rfl,
        ih]
      rfl

/-- C5: Enumeration robustness.  A directory entry whose filename does not
parse under the `hex(KeyTypeId) || hex(public key)` pattern is skipped by
public-key enumeration: the result over a directory with the malformed
entry equals the result over the directory without it (so it is empty when
no well-formed entry exists), and enumeration in the model is total — it
never aborts with an error. -/
theorem c5_enumeration_robustness (S : Scheme) (kt : KeyTypeId) (st : Store)
    (name : String) (c : FileContent) (d : Dir)
    (hbad : parseFileName name = none) :
    public_keys S kt st (dirInsert name c d) = public_keys S kt st d := by
  rw [public_keys, public_keys]
  congr 1
  rw [dirInsert, diskPubs, List.filterMap_cons]
  simp only [hbad]
  exact diskPubs_filter_ne kt name d hbad

theorem c5_enumeration_robustness_witness :
    parseFileName "7372" = none
    ∧ public_keys .sr25519 ktSR25519 (openStore none)
        (dirInsert "7372" ⟨none, "test"⟩ []) =
      public_keys .sr25519 ktSR25519 (openStore none) [] :=
  ⟨by decide, c5_enumeration_robustness .sr25519 ktSR25519 (openStore none)
    "7372" ⟨none, "test"⟩ [] (by decide)⟩

/-- C7: Seed determinism.  `insert_ephemeral_from_seed` at the ed25519
scheme applied to the test's seed string succeeds and yields exactly the
fixed public key `c7pub` — computed here by the RFC 8032 derivation — whose
SS58 encoding is `5DKUrgFqCPV8iAXx9sjy1nyBygQCeiUYRFWurZGhnrn3HJCA`; being
a function of the seed, the result is the same on every run; and on a store
reopened over the (untouched, still empty) directory that public key is not
retrievable. -/
theorem c7_seed_determinism :
    pubOf .ed25519 c7seed = c7pub
    ∧ ss58Encode c7pub = "5DKUrgFqCPV8iAXx9sjy1nyBygQCeiUYRFWurZGhnrn3HJCA"
    ∧ insert_ephemeral_from_seed .ed25519 c7seed (openStore none) [] =
        .ok (⟨none, [(.ed25519, c7pub, ⟨.ed25519, c7seed⟩)]⟩, [],
             (⟨.ed25519, c7seed⟩ : KeyPair))
    ∧ key_pair .ed25519 c7pub (openStore none) [] =
        .error (.pairNotFound (hexEncode c7pub)) := by
  set_option maxRecDepth 100000 in
  set_option maxHeartbeats 4000000 in
  refine ⟨by decide, by decide, by decide, by decide⟩

/-- C8 counterexample: at the keystore's public boundary (the
`From<Error> for TraitError` conversion of lib.rs), a decode/serialization
failure — an `Error::Json` — is mapped to `TraitError::Other` carrying the
error's string, not to the `PairNotFound` kind the claim states. -/
theorem c8_decode_failure_counterexample :
    Error.toTraitError (.jsonErr "expected value at line 1 column 1") =
      .other "expected value at line 1 column 1"
    ∧ (Error.toTraitError (.jsonErr "expected value at line 1 column 1")).isPairNotFound
      = false :=
  ⟨rfl, rfl⟩

/-- C8 (amended): every decode/serialization failure (`Error::Json`) is
surfaced to callers of the keystore's public boundary folded into the
`Other` error kind carrying only the underlying error's display string —
not as a distinct serialization error kind, and indistinguishable there
from an I/O failure with the same message — but not as `PairNotFound`. -/
theorem c8_decode_failure_folds_to_other (e : String) :
    Error.toTraitError (.jsonErr e) = .other e
    ∧ Error.toTraitError (.jsonErr e) = Error.toTraitError (.ioErr e)
    ∧ (Error.toTraitError (.jsonErr e)).isPairNotFound = false :=
  ⟨rfl, rfl, rfl⟩

/-- C10: Error conversion totality and collapsing.  The conversion
`From<Error> for TraitError` of lib.rs is total over all eight `Error`
variants and maps `KeyNotSupported`, `PairNotFound` and `Unavailable` to
their namesakes, each of `InvalidSeed`, `InvalidPhrase` and
`InvalidPassword` to `ValidationError` carrying that error's display
string, and both `Io` and `Json` to `Other` carrying only the underlying
error's string — so callers at the trait boundary cannot distinguish an I/O
failure from a JSON serialization failure with the same message. -/
theorem c10_error_conversion_totality (id : KeyTypeId) (s e : String) :
    Error.toTraitError (.keyNotSupported id) = .keyNotSupported id
    ∧ Error.toTraitError (.pairNotFound s) = .pairNotFound s
    ∧ Error.toTraitError .unavailable = .unavailable
    ∧ Error.toTraitError .invalidSeed = .validationError (Error.display .invalidSeed)
    ∧ Error.toTraitError .invalidPhrase = .validationError (Error.display .invalidPhrase)
    ∧ Error.toTraitError .invalidPassword = .validationError (Error.display .invalidPassword)
    ∧ Error.display .invalidSeed = "Invalid seed"
    ∧ Error.display .invalidPhrase = "Invalid recovery phrase (BIP39) data"
    ∧ Error.display .invalidPassword = "Invalid password"
    ∧ Error.toTraitError (.ioErr e) = .other e
    ∧ Error.toTraitError (.jsonErr e) = .other e
    ∧ Error.toTraitError (.ioErr e) = Error.toTraitError (.jsonErr e) :=
  ⟨rfl, rfl, rfl, rfl, rfl, rfl, rfl, rfl, rfl, rfl, rfl, rfl⟩

/-- C9: Pure delegation.  For every configured backend and every input,
each of the twelve operations of the `CryptoStore` capability surface on
the facade `Keystore` of lib.rs returns exactly what the backend returns
for the same input — the facade adds no logic of its own. -/
theorem c9_pure_delegation (b : CryptoStoreIface) :
    (∀ id, (Keystore.new b).sr25519_public_keys id = b.sr25519_public_keys id)
    ∧ (∀ id seed, (Keystore.new b).sr25519_generate_new id seed
        = b.sr25519_generate_new id seed)
    ∧ (∀ id, (Keystore.new b).ed25519_public_keys id = b.ed25519_public_keys id)
    ∧ (∀ id seed, (Keystore.new b).ed25519_generate_new id seed
        = b.ed25519_generate_new id seed)
    ∧ (∀ id, (Keystore.new b).ecdsa_public_keys id = b.ecdsa_public_keys id)
    ∧ (∀ id seed, (Keystore.new b).ecdsa_generate_new id seed
        = b.ecdsa_generate_new id seed)
    ∧ (∀ kt suri pub, (Keystore.new b).insert_unknown kt suri pub
        = b.insert_unknown kt suri pub)
    ∧ (∀ id ks, (Keystore.new b).supported_keys id ks = b.supported_keys id ks)
    ∧ (∀ id, (Keystore.new b).keys id = b.keys id)
    ∧ (∀ pks, (Keystore.new b).has_keys pks = b.has_keys pks)
    ∧ (∀ id key msg, (Keystore.new b).sign_with id key msg = b.sign_with id key msg)
    ∧ (∀ kt pub td, (Keystore.new b).sr25519_vrf_sign kt pub td
        = b.sr25519_vrf_sign kt pub td) :=
  ⟨fun _ => rfl, fun _ _ => rfl, fun _ => rfl, fun _ _ => rfl, fun _ => rfl,
   fun _ _ => rfl, fun _ _ _ => rfl, fun _ _ => rfl, fun _ => rfl, fun _ => rfl,
   fun _ _ _ => rfl, fun _ _ _ => rfl⟩

theorem runOps_cache (ops : List StoreOp) (p : Store × Dir) :
    (runOps p ops).1.cache = (cacheAdds ops).reverse ++ p.1.cache := by
  induction ops generalizing p with
  | nil => simp [runOps, cacheAdds]
  | cons op rest ih =>
    rw [runOps, List.foldl_cons, show List.foldl runOp (runOp p op) rest
        = runOps (runOp p op) rest from rfl, ih]
    cases op with
    | gen S' kt' suri =>
      simp [runOp, generate, cacheAdds, List.filterMap_cons]
    | eph S' seed =>
      cases hp : parseSeed seed with
      | none =>
        simp [runOp, insert_ephemeral_from_seed, hp, cacheAdds, List.filterMap_cons]
      | some b =>
        simp [runOp, insert_ephemeral_from_seed, hp, cacheAdds, List.filterMap_cons]

theorem mem_diskPubs (kt : KeyTypeId) (x : Bytes) (d : Dir) :
    x ∈ diskPubs kt d ↔ ∃ e ∈ d, parseFileName e.1 = some (kt, x) := by
  rw [diskPubs, List.mem_filterMap]
  constructor
  · rintro ⟨e, he, hf⟩
    refine ⟨e, he, ?_⟩
    revert hf
    cases hp : parseFileName e.1 with
    | none => intro h; exact absurd h (by simp)
    | some kp =>
      by_cases hk : kp.1 = kt
      · simp only [hk, beq_self_eq_true, if_true, Option.some.injEq]
        rintro rfl
        rw [← hk]
      · simp [hk]
  · rintro ⟨e, he, hf⟩
    exact ⟨e, he, by simp [hf]⟩

theorem mem_dirInsert (e : String × FileContent) (f : String) (c : FileContent) (d : Dir) :
    e ∈ dirInsert f c d ↔ e = (f, c) ∨ (e ∈ d ∧ e.1 ≠ f) := by
  simp [dirInsert, List.mem_filter]

theorem diskPubs_dirInsert_toFinset (kt ktf : KeyTypeId) (f : String) (pub : Bytes)
    (c : FileContent) (d : Dir) (hf : parseFileName f = some (ktf, pub)) :
    (diskPubs kt (dirInsert f c d)).toFinset =
      if ktf = kt then insert pub (diskPubs kt d).toFinset
      else (diskPubs kt d).toFinset := by
  by_cases hkt : ktf = kt
  · subst hkt
    rw [if_pos rfl]
    ext x
    simp only [List.mem_toFinset, Finset.mem_insert, mem_diskPubs]
    constructor
    · rintro ⟨e, he, hp⟩
      rcases (mem_dirInsert e f c d).mp he with rfl | ⟨hed, _⟩
      · left
        rw [hf] at hp
        exact (Prod.mk.injEq _ _ _ _ ▸ (Option.some.injEq _ _ ▸ hp)).2.symm
      · right
        exact ⟨e, hed, hp⟩
    · rintro (rfl | ⟨e, he, hp⟩)
      · exact ⟨(f, c), (mem_dirInsert _ f c d).mpr (Or.inl rfl), hf⟩
      · by_cases hef : e.1 = f
        · rw [hef, hf] at hp
          obtain ⟨-, rfl⟩ := Prod.mk.injEq _ _ _ _ ▸ (Option.some.injEq _ _ ▸ hp)
          exact ⟨(f, c), (mem_dirInsert _ f c d).mpr (Or.inl rfl), hf⟩
        · exact ⟨e, (mem_dirInsert e f c d).mpr (Or.inr ⟨he, hef⟩), hp⟩
  · rw [if_neg hkt]
    ext x
    simp only [List.mem_toFinset, mem_diskPubs]
    constructor
    · rintro ⟨e, he, hp⟩
      rcases (mem_dirInsert e f c d).mp he with rfl | ⟨hed, _⟩
      · rw [hf] at hp
        exact absurd ((Prod.mk.injEq _ _ _ _ ▸ (Option.some.injEq _ _ ▸ hp)).1) hkt
      · exact ⟨e, hed, hp⟩
    · rintro ⟨e, he, hp⟩
      by_cases hef : e.1 = f
      · rw [hef, hf] at hp
        exact absurd ((Prod.mk.injEq _ _ _ _ ▸ (Option.some.injEq _ _ ▸ hp)).1) hkt
      · exact ⟨e, (mem_dirInsert e f c d).mpr (Or.inr ⟨he, hef⟩), hp⟩

theorem genPubs_cons_gen (kt : KeyTypeId) (S' : Scheme) (kt' : KeyTypeId)
    (suri : String) (rest : List StoreOp) :
    genPubs kt (.gen S' kt' suri :: rest) =
      if kt' = kt then pubOf S' suri :: genPubs kt rest else genPubs kt rest := by
  by_cases h : kt' = kt <;> simp [genPubs, List.filterMap_cons, h]

theorem genPubs_cons_eph (kt : KeyTypeId) (S' : Scheme) (seed : String)
    (rest : List StoreOp) :
    genPubs kt (.eph S' seed :: rest) = genPubs kt rest := by
  simp [genPubs, List.filterMap_cons]

theorem persistedPubs_cons_gen (S S' : Scheme) (kt' : KeyTypeId) (suri : String)
    (rest : List StoreOp) :
    persistedPubs S (.gen S' kt' suri :: rest) =
      if S' = S then pubOf S' suri :: persistedPubs S rest else persistedPubs S rest := by
  by_cases h : S' = S <;> simp [persistedPubs, List.filterMap_cons, h]

theorem persistedPubs_cons_eph (S S' : Scheme) (seed : String) (rest : List StoreOp) :
    persistedPubs S (.eph S' seed :: rest) = persistedPubs S rest := by
  simp [persistedPubs, List.filterMap_cons]

theorem ephPubs_cons_gen (S S' : Scheme) (kt' : KeyTypeId) (suri : String)
    (rest : List StoreOp) :
    ephPubs S (.gen S' kt' suri :: rest) = ephPubs S rest := by
  simp [ephPubs, List.filterMap_cons]

theorem ephPubs_cons_eph (S S' : Scheme) (seed : String) (rest : List StoreOp) :
    ephPubs S (.eph S' seed :: rest) =
      if S' = S ∧ (parseSeed seed).isSome then pubOf S' seed :: ephPubs S rest
      else ephPubs S rest := by
  by_cases h : S' = S ∧ (parseSeed seed).isSome <;> simp [ephPubs, List.filterMap_cons, h]

theorem cacheAdds_cons_gen (S' : Scheme) (kt' : KeyTypeId) (suri : String)
    (rest : List StoreOp) :
    cacheAdds (.gen S' kt' suri :: rest) =
      (S', pubOf S' suri, ⟨S', suri⟩) :: cacheAdds rest := by
  simp [cacheAdds, List.filterMap_cons]

theorem cacheAdds_cons_eph (S' : Scheme) (seed : String) (rest : List StoreOp) :
    cacheAdds (.eph S' seed :: rest) =
      if (parseSeed seed).isSome then (S', pubOf S' seed, ⟨S', seed⟩) :: cacheAdds rest
      else cacheAdds rest := by
  by_cases h : (parseSeed seed).isSome <;> simp [cacheAdds, List.filterMap_cons, h]

theorem runOps_diskPubs (kt : KeyTypeId) (ops : List StoreOp) (p : Store × Dir) :
    (diskPubs kt (runOps p ops).2).toFinset =
      (diskPubs kt p.2).toFinset ∪ (genPubs kt ops).toFinset := by
  induction ops generalizing p with
  | nil => simp [runOps, genPubs]
  | cons op rest ih =>
    rw [runOps, List.foldl_cons, show List.foldl runOp (runOp p op) rest
        = runOps (runOp p op) rest from rfl, ih]
    cases op with
    | gen S' kt' suri =>
      have hd : (runOp p (.gen S' kt' suri)).2
          = dirInsert (keyFileName kt' (pubOf S' suri))
              (encodeFile suri p.1.password) p.2 := rfl
      rw [hd, diskPubs_dirInsert_toFinset kt kt' _ (pubOf S' suri) _ _
        (parseFileName_keyFileName kt' _ (pubOf_ne_nil S' suri))]
      by_cases hkt : kt' = kt
      · rw [if_pos hkt, genPubs_cons_gen, if_pos hkt, List.toFinset_cons,
          Finset.insert_union, Finset.union_insert]
      · rw [if_neg hkt, genPubs_cons_gen, if_neg hkt]
    | eph S' seed =>
      have hd : (runOp p (.eph S' seed)).2 = p.2 := by
        cases hp : parseSeed seed with
        | none => simp [runOp, insert_ephemeral_from_seed, hp]
        | some b => simp [runOp, insert_ephemeral_from_seed, hp]
      rw [hd, genPubs_cons_eph]

theorem cachePubs_cons (S S' : Scheme) (pub : Bytes) (pair : KeyPair) (rest : Cache) :
    cachePubs S ((S', pub, pair) :: rest) =
      if S' = S then pub :: cachePubs S rest else cachePubs S rest := by
  by_cases h : S' = S <;> simp [cachePubs, List.filterMap_cons, h]

theorem cachePubs_toFinset_reverse (S : Scheme) (l : Cache) :
    (cachePubs S l.reverse).toFinset = (cachePubs S l).toFinset := by
  ext x
  simp [cachePubs, List.mem_filterMap, List.mem_reverse]

theorem cachePubs_append (S : Scheme) (a b : Cache) :
    cachePubs S (a ++ b) = cachePubs S a ++ cachePubs S b :=
  List.filterMap_append a b _

theorem cacheAdds_pubs_toFinset (S : Scheme) (ops : List StoreOp) :
    (cachePubs S (cacheAdds ops)).toFinset =
      (persistedPubs S ops).toFinset ∪ (ephPubs S ops).toFinset := by
  induction ops with
  | nil => simp [cacheAdds, cachePubs, persistedPubs, ephPubs]
  | cons op rest ih =>
    cases op with
    | gen S' kt' suri =>
      rw [cacheAdds_cons_gen, cachePubs_cons, persistedPubs_cons_gen, ephPubs_cons_gen]
      by_cases hS : S' = S
      · rw [if_pos hS, if_pos hS, List.toFinset_cons, List.toFinset_cons, ih,
          Finset.insert_union]
      · rw [if_neg hS, if_neg hS, ih]
    | eph S' seed =>
      rw [cacheAdds_cons_eph, persistedPubs_cons_eph, ephPubs_cons_eph]
      by_cases hp : (parseSeed seed).isSome
      · rw [if_pos hp, cachePubs_cons]
        by_cases hS : S' = S
        · rw [if_pos hS, if_pos ⟨hS, hp⟩, List.toFinset_cons, List.toFinset_cons, ih,
            Finset.union_insert]
        · rw [if_neg hS, if_neg (fun h => hS h.1), ih]
      · rw [if_neg hp, if_neg (fun h => hp h.2), ih]

theorem genPubs_eq_persistedPubs (S : Scheme) (kt : KeyTypeId) (ops : List StoreOp)
    (hwf : ∀ op ∈ ops, opOk S kt op) :
    genPubs kt ops = persistedPubs S ops := by
  induction ops with
  | nil => rfl
  | cons op rest ih =>
    have hrest : ∀ o ∈ rest, opOk S kt o := fun o ho => hwf o (List.mem_cons_of_mem _ ho)
    cases op with
    | gen S' kt' suri =>
      have h1 : S' = S ↔ kt' = kt := hwf _ (List.mem_cons_self _ _)
      rw [genPubs_cons_gen, persistedPubs_cons_gen, ih hrest]
      by_cases hS : S' = S
      · rw [if_pos (h1.mp hS), if_pos hS]
      · rw [if_neg (fun hk => hS (h1.mpr hk)), if_neg hS]
    | eph S' seed =>
      rw [genPubs_cons_eph, persistedPubs_cons_eph, ih hrest]

/-- C4: Enumeration correctness.  Starting a store instance over an empty
directory and running any trace of generate and ephemeral-insert operations
whose generates use the scheme's own key type (`opOk`), `public_keys` for
scheme `S` and key type `kt` on that instance equals, as a set, the union
of the persisted public keys and the ephemeral public keys of scheme `S`
(keys of other schemes excluded); on a freshly reopened instance with an
empty cache it equals exactly the persisted ones. -/
theorem c4_enumeration_correctness (S : Scheme) (kt : KeyTypeId) (pw pw' : Option String)
    (ops : List StoreOp) (hwf : ∀ op ∈ ops, opOk S kt op) :
    (public_keys S kt (runOps (openStore pw, ([] : Dir)) ops).1
        (runOps (openStore pw, ([] : Dir)) ops).2).toFinset
      = (persistedPubs S ops).toFinset ∪ (ephPubs S ops).toFinset
    ∧ (public_keys S kt (openStore pw') (runOps (openStore pw, ([] : Dir)) ops).2).toFinset
      = (persistedPubs S ops).toFinset := by
  have hdisk : (diskPubs kt (runOps (openStore pw, ([] : Dir)) ops).2).toFinset
      = (persistedPubs S ops).toFinset := by
    rw [runOps_diskPubs, genPubs_eq_persistedPubs S kt ops hwf]
    simp [diskPubs]
  have hcache : (cachePubs S (runOps (openStore pw, ([] : Dir)) ops).1.cache).toFinset
      = (persistedPubs S ops).toFinset ∪ (ephPubs S ops).toFinset := by
    rw [runOps_cache, show ((openStore pw, ([] : Dir)).1.cache) = ([] : Cache) from rfl,
      List.append_nil, cachePubs_toFinset_reverse, cacheAdds_pubs_toFinset]
  constructor
  · rw [public_keys, List.toFinset_append, hcache, hdisk]
    ext x
    simp only [Finset.mem_union]
    tauto
  · rw [public_keys, List.toFinset_append, hdisk,
      show cachePubs S (openStore pw').cache = [] from rfl]
    simp

theorem c4_enumeration_correctness_witness :
    (public_keys .sr25519 ktSR25519 (runOps (openStore none, ([] : Dir)) c4ops).1
        (runOps (openStore none, ([] : Dir)) c4ops).2).toFinset
      = (persistedPubs .sr25519 c4ops).toFinset ∪ (ephPubs .sr25519 c4ops).toFinset
    ∧ (public_keys .sr25519 ktSR25519 (openStore (some "pw"))
        (runOps (openStore none, ([] : Dir)) c4ops).2).toFinset
      = (persistedPubs .sr25519 c4ops).toFinset :=
  c4_enumeration_correctness .sr25519 ktSR25519 none (some "pw") c4ops (by decide)
